import Mathlib

/-!
Shallow embedding of the minada shielded-ledger core (commitment engine,
Merkle accumulator, balance logic) and proofs about its specification.

Modelling conventions:
* Rust `u64` values are `Nat`; where the source performs `u64` addition that
  can overflow, the embedding applies `wrap64` (reduction mod `2 ^ 64`,
  Rust release-build wrapping semantics).
* The SHA-256 primitive is a parameter `sha : Bytes → Bytes` threaded through
  every definition; all domain-separation tags, byte encodings and string
  concatenations around it are taken literally from the source.  `echoDigest`
  is a concrete stand-in digest used to evaluate the development on concrete
  inputs.
* The ambient secure RNG, UUIDs and timestamps of the source are made
  explicit inputs (an `Entropy` record), as the spec itself directs for a
  deterministic reimplementation.
* Rust functions whose `Result` is `Ok` on every path are modelled as pure
  functions; functions with real error paths return `Except ShieldedError`;
  `open_commitment`, which can also panic via `.try_into().unwrap()`, returns
  `RustResult` with a dedicated `panicked` outcome.
-/

namespace Minada

/-- Byte strings are lists of naturals (each conceptually `< 256`). -/
abbrev Bytes := List Nat

/-- Lower-case hex digit for a nibble, as produced by the `hex` crate. -/
def hexDigit (n : Nat) : Char :=
  if n = 0 then '0' else if n = 1 then '1' else if n = 2 then '2'
  else if n = 3 then '3' else if n = 4 then '4' else if n = 5 then '5'
  else if n = 6 then '6' else if n = 7 then '7' else if n = 8 then '8'
  else if n = 9 then '9' else if n = 10 then 'a' else if n = 11 then 'b'
  else if n = 12 then 'c' else if n = 13 then 'd' else if n = 14 then 'e'
  else 'f'

/-- Two hex characters of one byte (high nibble first), as in `hex::encode`. -/
def byteHex (b : Nat) : List Char := [hexDigit (b / 16 % 16), hexDigit (b % 16)]

/-- Embedding of `hex::encode`: lower-case hex string of a byte sequence. -/
def hexEncode (bs : Bytes) : String := String.mk ((bs.map byteHex).flatten)

/-- Value of one hex character, `none` on a non-hex character. -/
def hexVal (c : Char) : Option Nat :=
  if '0' ≤ c ∧ c ≤ '9' then some (c.toNat - '0'.toNat)
  else if 'a' ≤ c ∧ c ≤ 'f' then some (c.toNat - 'a'.toNat + 10)
  else if 'A' ≤ c ∧ c ≤ 'F' then some (c.toNat - 'A'.toNat + 10)
  else none

/-- Embedding of `hex::decode` on the character list: fails on odd length or
on a non-hex character. -/
def hexDecodeChars : List Char → Option Bytes
  | [] => some []
  | [_] => none
  | c1 :: c2 :: rest =>
    match hexVal c1, hexVal c2, hexDecodeChars rest with
    | some h, some l, some bs => some ((16 * h + l) :: bs)
    | _, _, _ => none

/-- Embedding of `hex::decode` on strings. -/
def hexDecode (s : String) : Option Bytes := hexDecodeChars s.data

/-- Embedding of `u64::to_le_bytes`: the 8-byte little-endian encoding
(reads its argument mod `2 ^ 64`). -/
def le8 (n : Nat) : Bytes := (List.range 8).map fun i => n / 256 ^ i % 256

/-- Bytes of an ASCII string, as `str::as_bytes` on the ASCII fragment. -/
def strBytes (s : String) : Bytes := s.data.map Char.toNat

/-- Rust release-build `u64` wrapping: reduction mod `2 ^ 64`. -/
def wrap64 (n : Nat) : Nat := n % 2 ^ 64

/-- Concrete stand-in digest (the identity on byte lists), used to run the
hash-generic development on concrete inputs.  The source instantiates the
digest with SHA-256; no claim below depends on which digest is used except
through the stated hash applications. -/
def echoDigest (bs : Bytes) : Bytes := bs

/-- Embedding of `error.rs`: the error kinds the core can return. -/
inductive ShieldedError where
  | CryptoError : String → ShieldedError
  | MerkleTreeError : String → ShieldedError
  | InvalidAmount : String → ShieldedError
  | InvalidTransaction : String → ShieldedError
deriving DecidableEq

/-- Outcome of a Rust call that can return `Ok`, return `Err`, or panic
(the extra `panicked` case models an uncaught `unwrap` failure). -/
inductive RustResult (α : Type) where
  | ok : α → RustResult α
  | err : ShieldedError → RustResult α
  | panicked : RustResult α
deriving DecidableEq

/-- Embedding of `commitment.rs`: the `Commitment` struct. -/
structure Commitment where
  commitment_hash : String
  nonce : String
  amount : Option Nat
deriving DecidableEq

namespace CommitmentScheme

/-- Embedding of `CommitmentScheme::create_commitment`: hashes the 8-byte
little-endian amount followed by the nonce bytes; the stored `amount` is
cleared to hide it. -/
def create_commitment (sha : Bytes → Bytes) (amount : Nat) (nonce : Bytes) :
    Commitment :=
  { commitment_hash := hexEncode (sha (le8 amount ++ nonce))
    nonce := hexEncode nonce
    amount := none }

/-- Embedding of `CommitmentScheme::commit`; the fresh random nonce drawn in
the source is the explicit `nonce` argument. -/
def commit (sha : Bytes → Bytes) (amount : Nat) (nonce : Bytes) : String :=
  (create_commitment sha amount nonce).commitment_hash

/-- Embedding of `CommitmentScheme::open_commitment`.  The source decodes the
hex nonce (hex failure is a `CryptoError`), then force-fits the byte vector
into `[u8; 32]` with `.try_into().unwrap()` — when the decoded length is not
32 that `unwrap` panics, modelled by the `panicked` outcome. -/
def open_commitment (sha : Bytes → Bytes) (commitment : Commitment)
    (amount : Nat) (nonce : String) : RustResult Bool :=
  match hexDecode nonce with
  | none => .err (.CryptoError "Invalid nonce")
  | some nonce_bytes =>
    if nonce_bytes.length = 32 then
      .ok (commitment.commitment_hash
            == (create_commitment sha amount nonce_bytes).commitment_hash)
    else
      .panicked

/-- Error message of `create_range_proof`, built the way the source format
string does. -/
def rangeMsg (amount mn mx : Nat) : String :=
  "Amount " ++ toString amount ++ " not in range [" ++ toString mn ++ ", "
    ++ toString mx ++ "]"

/-- Embedding of `CommitmentScheme::create_range_proof`: rejects amounts
outside `[min, max]`, otherwise hashes the three 8-byte little-endian values
followed by the tag `"range_proof"`. -/
def create_range_proof (sha : Bytes → Bytes) (amount mn mx : Nat) :
    Except ShieldedError String :=
  if amount < mn ∨ mx < amount then
    .error (.InvalidAmount (rangeMsg amount mn mx))
  else
    .ok (hexEncode (sha (le8 amount ++ le8 mn ++ le8 mx
          ++ strBytes "range_proof")))

end CommitmentScheme

namespace ZeroKnowledgeProof

/-- Embedding of `ZeroKnowledgeProof::generate_proof_id`: first 16 bytes of
the hash of the transaction id, the tag `"zk_proof"` and a fresh nonce. -/
def generate_proof_id (sha : Bytes → Bytes) (transaction_id : String)
    (nonce : Bytes) : String :=
  hexEncode ((sha (strBytes transaction_id ++ strBytes "zk_proof"
      ++ nonce)).take 16)

/-- Embedding of `ZeroKnowledgeProof::create_proof_data`. -/
def create_proof_data (sha : Bytes → Bytes) (transaction_id : String)
    (nonce : Bytes) : String :=
  hexEncode (sha (strBytes transaction_id ++ strBytes "proof_data" ++ nonce))

/-- Embedding of `ZeroKnowledgeProof::generate`: `"proof_id:proof_data"`. -/
def generate (sha : Bytes → Bytes) (transaction_id : String)
    (idNonce dataNonce : Bytes) : String :=
  generate_proof_id sha transaction_id idNonce ++ ":"
    ++ create_proof_data sha transaction_id dataNonce

/-- Embedding of `ZeroKnowledgeProof::create_balance_proof`: rejects unless
`input_total` equals the `u64` sum `output_total + fee`, otherwise hashes the
three 8-byte little-endian values and the tag `"balance_proof"`. -/
def create_balance_proof (sha : Bytes → Bytes)
    (input_total output_total fee : Nat) : Except ShieldedError String :=
  if input_total ≠ wrap64 (output_total + fee) then
    .error (.InvalidTransaction
      "Input total does not equal output total plus fee")
  else
    .ok (hexEncode (sha (le8 input_total ++ le8 output_total ++ le8 fee
          ++ strBytes "balance_proof")))

end ZeroKnowledgeProof

/-- Embedding of `merkle_tree.rs`: the `MerkleTree` struct. -/
structure MerkleTree where
  root : String
  height : Nat
  leaf_count : Nat
  leaves : List String
deriving DecidableEq

namespace MerkleTree

/-- The sentinel root literal of the source (`merkle_tree.rs` lines 17 and
137): a run of 64 zero characters. -/
def zeroRoot : String :=
  "0000000000000000000000000000000000000000000000000000000000000000"

/-- Embedding of `MerkleTree::new`. -/
def new : MerkleTree :=
  { root := zeroRoot, height := 0, leaf_count := 0, leaves := [] }

/-- Embedding of `MerkleTree::hash_leaf`: hash of `"leaf:"` then the data. -/
def hash_leaf (sha : Bytes → Bytes) (data : String) : String :=
  hexEncode (sha (strBytes "leaf:" ++ strBytes data))

/-- Embedding of `MerkleTree::hash_pair`: hash of `"node:"`, the left hash
string and the right hash string (the source `Result` is `Ok` on every
path, so the embedding is pure). -/
def hash_pair (sha : Bytes → Bytes) (left right : String) : String :=
  hexEncode (sha (strBytes "node:" ++ strBytes left ++ strBytes right))

/-- Embedding of `MerkleTree::hash_level`: adjacent pairs at even offsets are
hashed; an unpaired trailing element is promoted unchanged. -/
def hash_level (sha : Bytes → Bytes) : List String → List String
  | [] => []
  | [x] => [x]
  | x :: y :: rest => hash_pair sha x y :: hash_level sha rest

/-- Loop of `MerkleTree::calculate_root`: reduce the level until one element
remains, then return it.  `fuel` bounds the iterations of the source
`while` loop; each pass at least halves a multi-element level, so a fuel of
the level length is always sufficient. -/
def rootFuel (sha : Bytes → Bytes) : Nat → List String → String
  | 0, level => level.headD zeroRoot
  | fuel + 1, level =>
    if level.length > 1 then rootFuel sha fuel (hash_level sha level)
    else level.headD zeroRoot

/-- Embedding of `MerkleTree::calculate_root`: the sentinel for an empty leaf
list, otherwise the pairwise-hash reduction of the leaves. -/
def calculate_root (sha : Bytes → Bytes) (leaves : List String) : String :=
  if leaves.isEmpty then zeroRoot else rootFuel sha leaves.length leaves

/-- Loop of `MerkleTree::calculate_height`: count the rounds of halving with
round-up until one node remains.  `fuel` bounds the iterations; `(n + 1) / 2`
is below `n` for `n ≥ 2`, so a fuel of `n` is always sufficient. -/
def heightFuel : Nat → Nat → Nat
  | 0, _ => 0
  | fuel + 1, n => if 1 < n then heightFuel fuel ((n + 1) / 2) + 1 else 0

/-- Embedding of `MerkleTree::calculate_height`. -/
def calculate_height (leaf_count : Nat) : Nat :=
  if leaf_count = 0 then 0 else heightFuel leaf_count leaf_count

/-- Embedding of `MerkleTree::add_leaf`: append the leaf hash, bump the
count, recompute the root from scratch and the height from the new count
(the source `Result` is `Ok` on every path, so the embedding is pure). -/
def add_leaf (sha : Bytes → Bytes) (t : MerkleTree) (data : String) :
    MerkleTree :=
  let leaves := t.leaves ++ [hash_leaf sha data]
  { root := calculate_root sha leaves
    height := calculate_height (t.leaf_count + 1)
    leaf_count := t.leaf_count + 1
    leaves := leaves }

/-- Loop of `MerkleTree::generate_proof`: at each multi-element level push
the sibling hash when its offset is in bounds (nothing is pushed for an
unpaired promoted node), then halve the index and reduce the level.  `fuel`
bounds the iterations as in `rootFuel`. -/
def proofFuel (sha : Bytes → Bytes) : Nat → List String → Nat → List String
  | 0, _, _ => []
  | fuel + 1, level, idx =>
    if level.length > 1 then
      (let sib := if idx % 2 = 0 then idx + 1 else idx - 1
       (if sib < level.length then [level.getD sib ""] else [])
         ++ proofFuel sha fuel (hash_level sha level) (idx / 2))
    else []

/-- Embedding of `MerkleTree::generate_proof`: out-of-bounds indices are a
`MerkleTreeError`; otherwise the bottom-up sibling list. -/
def generate_proof (sha : Bytes → Bytes) (t : MerkleTree) (leaf_index : Nat) :
    Except ShieldedError (List String) :=
  if leaf_index ≥ t.leaf_count then
    .error (.MerkleTreeError "Leaf index out of bounds")
  else
    .ok (proofFuel sha t.leaves.length t.leaves leaf_index)

/-- Fold of `MerkleTree::verify_proof`: combine the running hash with each
sibling, on the left or the right according to the parity of the running index,
halving the index each step. -/
def verifyFold (sha : Bytes → Bytes) :
    List String → String → Nat → String
  | [], current, _ => current
  | sibling :: rest, current, idx =>
    verifyFold sha rest
      (if idx % 2 = 0 then hash_pair sha current sibling
       else hash_pair sha sibling current)
      (idx / 2)

/-- Embedding of `MerkleTree::verify_proof` (the source `Result` is `Ok`
on every path, so the embedding returns the boolean directly). -/
def verify_proof (sha : Bytes → Bytes) (t : MerkleTree) (leaf_data : String)
    (proof : List String) (leaf_index : Nat) : Bool :=
  verifyFold sha proof (hash_leaf sha leaf_data) leaf_index == t.root

end MerkleTree

/-- Embedding of `shielded_transaction.rs`: transaction kind. -/
inductive TransactionType where
  | Public
  | Shielded
deriving DecidableEq

/-- Embedding of `shielded_transaction.rs`: transaction status. -/
inductive TransactionStatus where
  | Pending
  | Confirmed
  | Failed
deriving DecidableEq

/-- Explicit entropy consumed by transaction construction: each field stands
for one draw from the ambient secure RNG of the source (or the fresh UUID and
clock reading), made an explicit input as the spec directs. -/
structure Entropy where
  idNonce : Bytes
  uuid : Bytes
  inputNonce : Bytes
  outputNonce : Bytes
  changeNonce : Bytes
  proofIdNonce : Bytes
  proofDataNonce : Bytes
  sigNonce : Bytes
  time : Nat

/-- Embedding of the `ShieldedTransaction` struct (the timestamp is an
opaque number). -/
structure ShieldedTransaction where
  id : String
  «from» : String
  «to» : String
  amount : Nat
  fee : Nat
  transaction_type : TransactionType
  input_commitments : List String
  output_commitments : List String
  zk_proof : Option String
  signature : String
  timestamp : Nat
  status : TransactionStatus

namespace ShieldedTransaction

/-- Embedding of `ShieldedTransaction::calculate_fee`:
`max(1, amount / 1000)`. -/
def calculate_fee (amount : Nat) : Nat := max 1 (amount / 1000)

/-- Embedding of `ShieldedTransaction::generate_transaction_id`: hash of the
parties, the little-endian amount, a fresh nonce and a fresh UUID. -/
def generate_transaction_id (sha : Bytes → Bytes) (f t : String)
    (amount : Nat) (nonce uuid : Bytes) : String :=
  hexEncode (sha (strBytes f ++ strBytes t ++ le8 amount ++ nonce ++ uuid))

/-- Embedding of `ShieldedTransaction::generate_signature`: hash of the
transaction id, the signer and a fresh nonce. -/
def generate_signature (sha : Bytes → Bytes) (transaction_id signer : String)
    (nonce : Bytes) : String :=
  hexEncode (sha (strBytes transaction_id ++ strBytes signer ++ nonce))

/-- Embedding of `ShieldedTransaction::create_public`: no commitments and no
proof; fee from `calculate_fee`; status `Pending`. -/
def create_public (sha : Bytes → Bytes) (e : Entropy) (f t : String)
    (amount : Nat) : ShieldedTransaction :=
  let id := generate_transaction_id sha f t amount e.idNonce e.uuid
  { id := id
    «from» := f
    «to» := t
    amount := amount
    fee := calculate_fee amount
    transaction_type := .Public
    input_commitments := []
    output_commitments := []
    zk_proof := none
    signature := generate_signature sha id f e.sigNonce
    timestamp := e.time
    status := .Pending }

/-- Embedding of `ShieldedTransaction::create_shielded`: one input
commitment over the `u64` sum `amount + fee`, an output commitment over
`amount`, and — when `fee > 0` — an appended change commitment over the
literal value `0`; a placeholder proof over the id; status `Pending`. -/
def create_shielded (sha : Bytes → Bytes) (e : Entropy) (f t : String)
    (amount : Nat) : ShieldedTransaction :=
  let id := generate_transaction_id sha f t amount e.idNonce e.uuid
  let fee := calculate_fee amount
  let input_commitment := CommitmentScheme.commit sha (wrap64 (amount + fee))
    e.inputNonce
  let output_commitment := CommitmentScheme.commit sha amount e.outputNonce
  let change_commitment :=
    if fee > 0 then some (CommitmentScheme.commit sha 0 e.changeNonce)
    else none
  { id := id
    «from» := f
    «to» := t
    amount := amount
    fee := fee
    transaction_type := .Shielded
    input_commitments := [input_commitment]
    output_commitments :=
      [output_commitment]
        ++ (match change_commitment with | some c => [c] | none => [])
    zk_proof := some (ZeroKnowledgeProof.generate sha id e.proofIdNonce
      e.proofDataNonce)
    signature := generate_signature sha id f e.sigNonce
    timestamp := e.time
    status := .Pending }

/-- Embedding of `ShieldedTransaction::get_input_total`: the `u64` sum
`amount + fee`. -/
def get_input_total (tx : ShieldedTransaction) : Nat :=
  wrap64 (tx.amount + tx.fee)

/-- Embedding of `ShieldedTransaction::get_output_total`. -/
def get_output_total (tx : ShieldedTransaction) : Nat := tx.amount

/-- Embedding of `ShieldedTransaction::is_balanced`: compares the input
total with the `u64` sum of the output total and the fee. -/
def is_balanced (tx : ShieldedTransaction) : Bool :=
  get_input_total tx == wrap64 (get_output_total tx + tx.fee)

end ShieldedTransaction

/-- The tree obtained from `new` by adding the leaves `"L0"`, `"L1"`,
`"L2"` in order. -/
def tree3 (sha : Bytes → Bytes) : MerkleTree :=
  ["L0", "L1", "L2"].foldl (MerkleTree.add_leaf sha) MerkleTree.new

/-- Deterministic commitment fixture: amount `100` with the all-zero 32-byte
nonce, under the concrete stand-in digest. -/
def fixtureCommitment : Commitment :=
  CommitmentScheme.create_commitment echoDigest 100 (List.replicate 32 0)

/-! Helper lemmas. -/

/-- Hex encoding yields two characters per byte. -/
lemma hexEncode_length (bs : Bytes) : (hexEncode bs).length = 2 * bs.length := by
  have h : ∀ l : Bytes, ((l.map byteHex).flatten).length = 2 * l.length := by
    intro l
    induction l with
    | nil => rfl
    | cons b rest ih => simp [byteHex] at ih ⊢; omega
  simpa [hexEncode, String.length] using h bs

/-- The halving loop of `calculate_height` computes the base-2 ceiling
logarithm once the fuel covers the node count. -/
lemma heightFuel_eq_clog :
    ∀ fuel n, n ≤ fuel → MerkleTree.heightFuel fuel n = Nat.clog 2 n := by
  intro fuel
  induction fuel with
  | zero =>
    intro n hn
    have hn0 : n = 0 := Nat.le_zero.mp hn
    subst hn0
    simp [MerkleTree.heightFuel]
  | succ fuel ih =>
    intro n hn
    by_cases h1 : 1 < n
    · have hhalf : (n + 1) / 2 ≤ fuel := by omega
      rw [show MerkleTree.heightFuel (fuel + 1) n
            = (if 1 < n then MerkleTree.heightFuel fuel ((n + 1) / 2) + 1
               else 0) from rfl,
        if_pos h1, ih _ hhalf,
        Nat.clog_of_two_le (by norm_num) h1]
      norm_num
    · rw [show MerkleTree.heightFuel (fuel + 1) n
            = (if 1 < n then MerkleTree.heightFuel fuel ((n + 1) / 2) + 1
               else 0) from rfl,
        if_neg h1, Nat.clog_of_right_le_one (by omega)]

/-- `calculate_height` is the base-2 ceiling logarithm. -/
lemma calculate_height_eq_clog (n : Nat) :
    MerkleTree.calculate_height n = Nat.clog 2 n := by
  by_cases h : n = 0
  · subst h; simp [MerkleTree.calculate_height]
  · simpa [MerkleTree.calculate_height, h] using heightFuel_eq_clog n n le_rfl

/-- Stepping `add_leaf` preserves the structural invariants of the tree. -/
lemma foldl_add_leaf_invariant (sha : Bytes → Bytes) (datas : List String) :
    ∀ t : MerkleTree,
      t.leaf_count = t.leaves.length ∧
        t.root = MerkleTree.calculate_root sha t.leaves ∧
        t.height = MerkleTree.calculate_height t.leaf_count →
      ((datas.foldl (MerkleTree.add_leaf sha) t).leaf_count
          = (datas.foldl (MerkleTree.add_leaf sha) t).leaves.length ∧
        (datas.foldl (MerkleTree.add_leaf sha) t).root
          = MerkleTree.calculate_root sha
              (datas.foldl (MerkleTree.add_leaf sha) t).leaves ∧
        (datas.foldl (MerkleTree.add_leaf sha) t).height
          = MerkleTree.calculate_height
              (datas.foldl (MerkleTree.add_leaf sha) t).leaf_count) := by
  induction datas with
  | nil => intro t h; simpa using h
  | cons d rest ih =>
    intro t h
    refine ih (MerkleTree.add_leaf sha t d) ?_
    refine ⟨?_, rfl, rfl⟩
    simp [MerkleTree.add_leaf, h.1]

/-! Claim theorems. -/

/-- C2: the claim says `open_commitment` returns an explicit crypto error on
every nonce whose hex decoding is not exactly 32 bytes and never panics.
The code only returns `CryptoError` when hex decoding itself fails; on valid
hex of the wrong byte length (here 1 byte and 33 bytes) it panics through
`.try_into().unwrap()`. -/
theorem open_commitment_wrong_length_panics :
    CommitmentScheme.open_commitment echoDigest fixtureCommitment 100 "00"
        = .panicked ∧
    CommitmentScheme.open_commitment echoDigest fixtureCommitment 100
        (String.mk (List.replicate 66 '0')) = .panicked ∧
    CommitmentScheme.open_commitment echoDigest fixtureCommitment 100 "zz"
        = .err (.CryptoError "Invalid nonce") := by
  refine ⟨rfl, by decide, rfl⟩

/-- C3 counterexample: the empty-tree sentinel root of the source has 64
characters, so it is not the claimed 68-character all-zero string — neither
as initialized by `new` nor as recomputed by `calculate_root` on an empty
leaf list. -/
theorem sentinel_not_68_zeros :
    MerkleTree.new.root.length = 64 ∧
    (MerkleTree.new.root == String.mk (List.replicate 68 '0')) = false ∧
    (MerkleTree.calculate_root echoDigest []
        == String.mk (List.replicate 68 '0')) = false := by
  refine ⟨by decide, by decide, by decide⟩

/-- C3 (amended): the root of the empty Merkle tree — as initialized by
`new` and as recomputed by `calculate_root` on an empty leaf list — is a
literal all-zero string of exactly 64 zero characters. -/
theorem sentinel_is_64_zeros :
    MerkleTree.new.root = String.mk (List.replicate 64 '0') ∧
    (∀ sha : Bytes → Bytes,
      MerkleTree.calculate_root sha [] = String.mk (List.replicate 64 '0')) ∧
    MerkleTree.new.root.length = 64 := by
  have hz : String.mk (List.replicate 64 '0') = MerkleTree.zeroRoot := by decide
  refine ⟨by decide, fun sha => ?_, by decide⟩
  rw [hz]
  rfl

/-- C4: `is_balanced` compares `amount + fee` with `amount + fee` and is
`true` for every `ShieldedTransaction` — in particular for every transaction
produced by `create_public` or `create_shielded`. -/
theorem is_balanced_always_true :
    (∀ tx : ShieldedTransaction, tx.is_balanced = true) ∧
    (∀ (sha : Bytes → Bytes) (e : Entropy) (f t : String) (amount : Nat),
      (ShieldedTransaction.create_public sha e f t amount).is_balanced
          = true ∧
      (ShieldedTransaction.create_shielded sha e f t amount).is_balanced
          = true) := by
  have main : ∀ tx : ShieldedTransaction, tx.is_balanced = true := by
    intro tx
    simp [ShieldedTransaction.is_balanced, ShieldedTransaction.get_input_total,
      ShieldedTransaction.get_output_total]
  exact ⟨main, fun sha e f t amount => ⟨main _, main _⟩⟩

/-- C9: `calculate_fee` is `max(1, floor(amount / 1000))`, with the table
values at 999, 1000 and 2500. -/
theorem calculate_fee_spec :
    (∀ amount : Nat,
      ShieldedTransaction.calculate_fee amount = max 1 (amount / 1000)) ∧
    ShieldedTransaction.calculate_fee 999 = 1 ∧
    ShieldedTransaction.calculate_fee 1000 = 1 ∧
    ShieldedTransaction.calculate_fee 2500 = 2 :=
  ⟨fun _ => rfl, by decide, by decide, by decide⟩

/-- C1: the claim says that after adding leaves `"L0"`, `"L1"`, `"L2"` the
generated proof for index 2 verifies.  It does not: for any digest, the
generated proof for the promoted leaf `"L2"` is the single sibling
`hash_pair(hash(L0), hash(L1))`, the root places that node on the left of
the final pair, yet verification (index 2 being even) hashes the leaf on the
left — so verification succeeds only under the hash coincidence stated in
the third conjunct, and under the concrete stand-in digest it returns
`false`. -/
theorem merkle_inclusion_roundtrip_bug :
    (∀ sha : Bytes → Bytes,
      MerkleTree.generate_proof sha (tree3 sha) 2
          = .ok [MerkleTree.hash_pair sha (MerkleTree.hash_leaf sha "L0")
                  (MerkleTree.hash_leaf sha "L1")] ∧
      (tree3 sha).root
          = MerkleTree.hash_pair sha
              (MerkleTree.hash_pair sha (MerkleTree.hash_leaf sha "L0")
                (MerkleTree.hash_leaf sha "L1"))
              (MerkleTree.hash_leaf sha "L2") ∧
      MerkleTree.verify_proof sha (tree3 sha) "L2"
          [MerkleTree.hash_pair sha (MerkleTree.hash_leaf sha "L0")
            (MerkleTree.hash_leaf sha "L1")] 2
          = (MerkleTree.hash_pair sha (MerkleTree.hash_leaf sha "L2")
              (MerkleTree.hash_pair sha (MerkleTree.hash_leaf sha "L0")
                (MerkleTree.hash_leaf sha "L1"))
              == (tree3 sha).root)) ∧
    Except.map
        (fun p => MerkleTree.verify_proof echoDigest (tree3 echoDigest)
          "L2" p 2)
        (MerkleTree.generate_proof echoDigest (tree3 echoDigest) 2)
      = .ok false := by
  refine ⟨fun sha => ⟨rfl, rfl, rfl⟩, rfl⟩

/-- C5: every tree reachable from `new` by `add_leaf` calls has
`leaf_count = length(leaves)`, a root equal to the pairwise-hash reduction
of its leaves, and a height recomputed from the count; `calculate_height` is
the base-2 ceiling logarithm (0 at counts 0 and 1), with the claimed table
values. -/
theorem merkle_invariants :
    (∀ (sha : Bytes → Bytes) (datas : List String),
      (datas.foldl (MerkleTree.add_leaf sha) MerkleTree.new).leaf_count
          = (datas.foldl (MerkleTree.add_leaf sha) MerkleTree.new).leaves.length ∧
      (datas.foldl (MerkleTree.add_leaf sha) MerkleTree.new).root
          = MerkleTree.calculate_root sha
              (datas.foldl (MerkleTree.add_leaf sha) MerkleTree.new).leaves ∧
      (datas.foldl (MerkleTree.add_leaf sha) MerkleTree.new).height
          = MerkleTree.calculate_height
              (datas.foldl (MerkleTree.add_leaf sha) MerkleTree.new).leaf_count) ∧
    (∀ n, MerkleTree.calculate_height n = Nat.clog 2 n) ∧
    MerkleTree.calculate_height 0 = 0 ∧ MerkleTree.calculate_height 1 = 0 ∧
    MerkleTree.calculate_height 2 = 1 ∧ MerkleTree.calculate_height 3 = 2 ∧
    MerkleTree.calculate_height 4 = 2 ∧ MerkleTree.calculate_height 5 = 3 ∧
    MerkleTree.calculate_height 8 = 3 := by
  refine ⟨fun sha datas => ?_, calculate_height_eq_clog,
    by decide, by decide, by decide, by decide, by decide, by decide, by decide⟩
  exact foldl_add_leaf_invariant sha datas MerkleTree.new ⟨rfl, rfl, rfl⟩

/-- C6: when the nonce string hex-decodes to exactly 32 bytes,
`open_commitment` returns `true` exactly when the stored commitment hash equals
the hash recomputed by `create_commitment` from the amount and the decoded
nonce. -/
theorem open_commitment_roundtrip (sha : Bytes → Bytes) (c : Commitment)
    (amount : Nat) (nonce : String) (nonce_bytes : Bytes)
    (hdec : hexDecode nonce = some nonce_bytes)
    (hlen : nonce_bytes.length = 32) :
    CommitmentScheme.open_commitment sha c amount nonce = .ok true ↔
      c.commitment_hash
        = (CommitmentScheme.create_commitment sha amount
            nonce_bytes).commitment_hash := by
  simp [CommitmentScheme.open_commitment, hdec, hlen]

/-- Witness for C6 at a concrete input: the fixture commitment over amount 5
with the all-zero nonce opens to `true` against the 64-character zero nonce
string. -/
theorem open_commitment_roundtrip_witness :
    CommitmentScheme.open_commitment echoDigest
        (CommitmentScheme.create_commitment echoDigest 5 (List.replicate 32 0))
        5 (String.mk (List.replicate 64 '0')) = .ok true :=
  (open_commitment_roundtrip echoDigest
      (CommitmentScheme.create_commitment echoDigest 5 (List.replicate 32 0))
      5 (String.mk (List.replicate 64 '0')) (List.replicate 32 0)
      (by decide) (by decide)).mpr rfl

/-- C7: `create_range_proof` fails with an invalid-amount error exactly when
the amount is outside `[min, max]`; on success (including both boundary
values, covered by the second conjunct) it returns the hash of the three
little-endian values and the `"range_proof"` tag, a 64-character hex string
whenever the digest produces 32 bytes. -/
theorem create_range_proof_spec (sha : Bytes → Bytes)
    (hsha : ∀ bs : Bytes, (sha bs).length = 32) (amount mn mx : Nat) :
    ((CommitmentScheme.create_range_proof sha amount mn mx
        = .error (.InvalidAmount (CommitmentScheme.rangeMsg amount mn mx)))
      ↔ (amount < mn ∨ mx < amount)) ∧
    (mn ≤ amount → amount ≤ mx →
      CommitmentScheme.create_range_proof sha amount mn mx
        = .ok (hexEncode (sha (le8 amount ++ le8 mn ++ le8 mx
            ++ strBytes "range_proof")))) ∧
    (hexEncode (sha (le8 amount ++ le8 mn ++ le8 mx
        ++ strBytes "range_proof"))).length = 64 := by
  refine ⟨?_, ?_, ?_⟩
  · by_cases h : amount < mn ∨ mx < amount <;>
      simp [CommitmentScheme.create_range_proof, h]
  · intro h1 h2
    rw [CommitmentScheme.create_range_proof, if_neg (by omega)]
  · rw [hexEncode_length, hsha]

/-- Witness for C7 at the lower boundary `amount = min`: under a digest that
always returns 32 zero bytes, `create_range_proof 3 3 10` succeeds with a
64-character string. -/
theorem create_range_proof_spec_witness :
    CommitmentScheme.create_range_proof (fun _ => List.replicate 32 0) 3 3 10
        = .ok (hexEncode (List.replicate 32 0)) ∧
    (hexEncode (List.replicate 32 0)).length = 64 := by
  have h := create_range_proof_spec (fun _ => List.replicate 32 0)
    (fun _ => rfl) 3 3 10
  exact ⟨h.2.1 (by decide) (by decide), h.2.2⟩

/-- C8: `create_balance_proof` fails with an invalid-transaction error
exactly when the input total differs from the `u64` sum of the output total
and the fee, and otherwise returns the hash of the three little-endian
values and the `"balance_proof"` tag; in particular `(1001, 1000, 1)`
succeeds and `(1001, 1000, 2)` fails. -/
theorem create_balance_proof_spec :
    (∀ (sha : Bytes → Bytes) (input_total output_total fee : Nat),
      ZeroKnowledgeProof.create_balance_proof sha input_total output_total fee
          = (if input_total = wrap64 (output_total + fee) then
              .ok (hexEncode (sha (le8 input_total ++ le8 output_total
                    ++ le8 fee ++ strBytes "balance_proof")))
            else
              .error (.InvalidTransaction
                "Input total does not equal output total plus fee")) ∧
      (ZeroKnowledgeProof.create_balance_proof sha input_total output_total
            fee
          = .error (.InvalidTransaction
              "Input total does not equal output total plus fee")
        ↔ input_total ≠ wrap64 (output_total + fee))) ∧
    (∀ sha : Bytes → Bytes,
      ZeroKnowledgeProof.create_balance_proof sha 1001 1000 1
          = .ok (hexEncode (sha (le8 1001 ++ le8 1000 ++ le8 1
              ++ strBytes "balance_proof"))) ∧
      ZeroKnowledgeProof.create_balance_proof sha 1001 1000 2
          = .error (.InvalidTransaction
              "Input total does not equal output total plus fee")) := by
  have main : ∀ (sha : Bytes → Bytes) (i o f : Nat),
      ZeroKnowledgeProof.create_balance_proof sha i o f
        = (if i = wrap64 (o + f) then
            .ok (hexEncode (sha (le8 i ++ le8 o ++ le8 f
                  ++ strBytes "balance_proof")))
          else
            .error (.InvalidTransaction
              "Input total does not equal output total plus fee")) := by
    intro sha i o f
    by_cases h : i = wrap64 (o + f) <;>
      simp [ZeroKnowledgeProof.create_balance_proof, h]
  refine ⟨fun sha i o f => ⟨main sha i o f, ?_⟩, fun sha => ⟨?_, ?_⟩⟩
  · rw [main sha i o f]
    by_cases h : i = wrap64 (o + f) <;> simp [h]
  · rw [main sha 1001 1000 1, if_pos (by decide)]
  · rw [main sha 1001 1000 2, if_neg (by decide)]

/-- Witness for C8 at a concrete input: `(1001, 1000, 2)` fails with the
invalid-transaction error under the concrete stand-in digest. -/
theorem create_balance_proof_spec_witness :
    ZeroKnowledgeProof.create_balance_proof echoDigest 1001 1000 2
        = .error (.InvalidTransaction
            "Input total does not equal output total plus fee") :=
  (create_balance_proof_spec.2 echoDigest).2

/-- C10: `create_shielded` always produces exactly one input commitment —
over the `u64` sum `amount + fee` — and exactly two output commitments, one
over `amount` and a change commitment over the literal value 0, because
`calculate_fee` is always positive; at `amount = 1000` the fee is 1 and the
input commitment is over 1001. -/
theorem create_shielded_structure :
    (∀ (sha : Bytes → Bytes) (e : Entropy) (f t : String) (amount : Nat),
      (ShieldedTransaction.create_shielded sha e f t amount).input_commitments
          = [CommitmentScheme.commit sha
              (wrap64 (amount + ShieldedTransaction.calculate_fee amount))
              e.inputNonce] ∧
      (ShieldedTransaction.create_shielded sha e f t amount).output_commitments
          = [CommitmentScheme.commit sha amount e.outputNonce,
             CommitmentScheme.commit sha 0 e.changeNonce] ∧
      (ShieldedTransaction.create_shielded sha e f t amount).fee
          = ShieldedTransaction.calculate_fee amount ∧
      0 < ShieldedTransaction.calculate_fee amount) ∧
    (∀ (sha : Bytes → Bytes) (e : Entropy) (f t : String),
      (ShieldedTransaction.create_shielded sha e f t 1000).fee = 1 ∧
      (ShieldedTransaction.create_shielded sha e f t 1000).input_commitments
          = [CommitmentScheme.commit sha 1001 e.inputNonce]) := by
  have hpos : ∀ amount : Nat, 0 < ShieldedTransaction.calculate_fee amount :=
    fun amount => Nat.lt_of_lt_of_le Nat.zero_lt_one (le_max_left 1 _)
  have main : ∀ (sha : Bytes → Bytes) (e : Entropy) (f t : String)
      (amount : Nat),
      (ShieldedTransaction.create_shielded sha e f t amount).input_commitments
          = [CommitmentScheme.commit sha
              (wrap64 (amount + ShieldedTransaction.calculate_fee amount))
              e.inputNonce] ∧
      (ShieldedTransaction.create_shielded sha e f t amount).output_commitments
          = [CommitmentScheme.commit sha amount e.outputNonce,
             CommitmentScheme.commit sha 0 e.changeNonce] ∧
      (ShieldedTransaction.create_shielded sha e f t amount).fee
          = ShieldedTransaction.calculate_fee amount := by
    intro sha e f t amount
    refine ⟨rfl, ?_, rfl⟩
    simp [ShieldedTransaction.create_shielded, if_pos (hpos amount)]
  refine ⟨fun sha e f t amount =>
    ⟨(main sha e f t amount).1, (main sha e f t amount).2.1,
      (main sha e f t amount).2.2, hpos amount⟩,
    fun sha e f t => ⟨?_, ?_⟩⟩
  · exact (main sha e f t 1000).2.2.trans (by decide)
  · rw [(main sha e f t 1000).1,
      show wrap64 (1000 + ShieldedTransaction.calculate_fee 1000) = 1001
        from by decide]

end Minada
